import Mathlib

/-!
# A shallow embedding of the graph-materialization core of
# gridsome-source-kentico-kontent (src/KenticoKontentSource.js)

The JavaScript source mutates a Gridsome `store` holding named collections
of nodes; here the store is an explicit state value threaded through each
operation. A JS `collection` variable is a live alias into the store, so
every collection read or write in the embedding goes through the store by
the collection's type name, which reproduces the aliasing faithfully.

External collaborators (the delivery client, the item factories and the
Gridsome store engine) are outside the source tree; their outputs appear
here as plain data (`Node`, `Content`) and their configured type names as a
`Config` record. Node construction (`contentItem.createNode()`) happens
before the embedded functions run, so `addContentItemNodes` receives the
already-constructed nodes.
-/

namespace KenticoKontentSource

/-- The type names produced by the external item factories:
`contentItemFactory.getAssetTypeName()`, `contentItemFactory.getItemLinkTypeName()`
and `taxonomyItemFactory.getTypeName(codename)`. -/
structure Config where
  assetTypeName : String
  itemLinkTypeName : String
  taxonomyTypeName : String → String
deriving Inhabited

/-- An asset descriptor as stored on an asset field and inserted as a node:
`id`, `url` and the stored media `type`. -/
structure Asset where
  id : String
  url : String
  mediaType : String
deriving Repr, DecidableEq

/-- A reference to a linked content item, carrying the referenced node's
type name (`linkedItem.typeName`). -/
structure LinkedItem where
  id : String
  typeName : String
deriving Repr, DecidableEq

/-- One linked-item field of a resolved node. -/
structure LinkedItemField where
  fieldName : String
  linkedItems : List LinkedItem
deriving Repr, DecidableEq

/-- One taxonomy field of a resolved node: references a taxonomy group by
codename. -/
structure TaxonomyField where
  fieldName : String
  taxonomyGroup : String
deriving Repr, DecidableEq

/-- One asset field of a resolved node. -/
structure AssetField where
  fieldName : String
  assets : List Asset
deriving Repr, DecidableEq

/-- The `item` part of a constructed node: what `collection.addNode(node.item)`
inserts. `isComponent` is the flag the insertion record exposes; `path` is
read when deriving the ItemLink node. -/
structure Item where
  id : String
  typeName : String
  path : String
  isComponent : Bool
deriving Repr, DecidableEq

/-- The record `{id, typeName, path}` inserted by `addItemLinkNode`. -/
structure ItemLinkNode where
  id : String
  typeName : String
  path : String
deriving Repr, DecidableEq

/-- A node as returned by `contentItem.createNode()`: the item plus its
three classified field groups. -/
structure Node where
  item : Item
  linkedItemFields : List LinkedItemField
  taxonomyFields : List TaxonomyField
  assetFields : List AssetField
deriving Repr, DecidableEq

/-- An entry held by a collection: content items, asset nodes and item-link
nodes all live in collections and are found by id. -/
inductive Entry where
  | content (item : Item)
  | assetNode (a : Asset)
  | itemLink (l : ItemLinkNode)
deriving Repr, DecidableEq

/-- The id `findNode({ id })` matches on. -/
def Entry.id : Entry → String
  | .content i => i.id
  | .assetNode a => a.id
  | .itemLink l => l.id

/-- The `isComponent` flag of an insertion record (set on content items by
the external node constructor; derived records are never components). -/
def Entry.isComponent : Entry → Bool
  | .content i => i.isComponent
  | .assetNode _ => false
  | .itemLink _ => false

/-- A Gridsome collection: its inserted nodes in insertion order and its
declared references `(fieldName, typeName)` in declaration order. -/
structure Collection where
  nodes : List Entry
  refs : List (String × String)
deriving Repr, DecidableEq

/-- A fresh collection as returned by `store.addCollection`. -/
def Collection.empty : Collection := ⟨[], []⟩

/-- The Gridsome store: named collections (an association list in creation
order) and the type names for which schema resolvers have been registered. -/
structure Store where
  collections : List (String × Collection)
  resolvers : List String
deriving Repr, DecidableEq

/-- `store.getCollection(typeName)`: `some` collection or `none` when the
collection does not exist yet. -/
def Store.find? (s : Store) (typeName : String) : Option Collection :=
  (s.collections.find? (fun kv => kv.1 == typeName)).map (fun kv => kv.2)

/-- Rewrite the named collection in place (a mutation through a live JS
collection reference); no effect when the collection does not exist. -/
def Store.modify (s : Store) (typeName : String) (f : Collection → Collection) :
    Store :=
  { s with
    collections :=
      s.collections.map (fun kv => if kv.1 == typeName then (kv.1, f kv.2) else kv) }

/-- `collection.addNode(data)` on the named collection. -/
def Store.addNodeTo (s : Store) (typeName : String) (e : Entry) : Store :=
  s.modify typeName (fun c => { c with nodes := c.nodes ++ [e] })

/-- `collection.addReference(fieldName, typeName)` on the named collection. -/
def Store.addReference (s : Store) (typeName fieldName target : String) : Store :=
  s.modify typeName (fun c => { c with refs := c.refs ++ [(fieldName, target)] })

/-- `collection.findNode({ id })` on the named collection: the first entry
with that id, or `none` (also `none` when the collection itself is absent). -/
def Store.findNode (s : Store) (typeName id : String) : Option Entry :=
  match s.find? typeName with
  | none => none
  | some c => c.nodes.find? (fun e => e.id == id)

/-- `KenticoKontentSource.getCollection(store, typeName)`: return the
existing collection, else create it (`store.addCollection`). The returned
collection value is the snapshot the JS caller receives. -/
def getCollection (s : Store) (typeName : String) : Store × Collection :=
  match s.find? typeName with
  | some c => (s, c)
  | none =>
      ({ s with collections := s.collections ++ [(typeName, Collection.empty)] },
       Collection.empty)

/-- The loop body of `addLinkedItemFields`, one linked-item field at a
time: skip the field when it has no linked items, else declare a reference
from the field name to `typeNames[0]`. -/
def linkedItemFieldStep (typeName : String) (acc : Store)
    (linkedItemField : LinkedItemField) : Store :=
  if linkedItemField.linkedItems.length = 0 then
    -- There are no linked items so no need to do anything
    acc
  else
    let typeNames := linkedItemField.linkedItems.map (fun li => li.typeName)
    let fieldName := linkedItemField.fieldName
    let target := typeNames.headD ""
    acc.addReference typeName fieldName target

/-- `KenticoKontentSource.addLinkedItemFields(collection, node)`. -/
def addLinkedItemFields (s : Store) (typeName : String) (node : Node) : Store :=
  node.linkedItemFields.foldl (linkedItemFieldStep typeName) s

/-- The loop body of `addTaxonomyFields`: declare a reference from the
field name to the taxonomy group's generated type name. -/
def taxonomyFieldStep (cfg : Config) (typeName : String) (acc : Store)
    (taxonomyField : TaxonomyField) : Store :=
  acc.addReference typeName taxonomyField.fieldName
    (cfg.taxonomyTypeName taxonomyField.taxonomyGroup)

/-- `KenticoKontentSource.addTaxonomyFields(collection, node)`. -/
def addTaxonomyFields (cfg : Config) (s : Store) (typeName : String) (node : Node) :
    Store :=
  node.taxonomyFields.foldl (taxonomyFieldStep cfg typeName) s

/-- The inner loop body of `addAssetFields`, one asset at a time: insert
the asset node only when no node with its id exists yet. -/
def assetStep (assetTypeName : String) (acc2 : Store) (asset : Asset) : Store :=
  -- Only add the asset node if it does not already exist in the collection
  match acc2.findNode assetTypeName asset.id with
  | some _ => acc2
  | none => acc2.addNodeTo assetTypeName (Entry.assetNode asset)

/-- The outer loop body of `addAssetFields`, one asset field at a time:
insert the field's missing assets, then declare a reference from the field
name to the Asset type name. -/
def assetFieldStep (assetTypeName typeName : String) (acc : Store)
    (assetField : AssetField) : Store :=
  let acc := assetField.assets.foldl (assetStep assetTypeName) acc
  acc.addReference typeName assetField.fieldName assetTypeName

/-- `KenticoKontentSource.addAssetFields(store, collection, node)`: get or
create the Asset collection; for each asset field, insert each asset not
already present (by id) and declare a reference from the field name to the
Asset type name. -/
def addAssetFields (cfg : Config) (s : Store) (typeName : String) (node : Node) :
    Store :=
  let assetTypeName := cfg.assetTypeName
  let s := (getCollection s assetTypeName).1
  node.assetFields.foldl (assetFieldStep assetTypeName typeName) s

/-- `KenticoKontentSource.addItemLinkNode(store, node)`: get or create the
ItemLink collection and insert the derived `{id, typeName, path}` record. -/
def addItemLinkNode (cfg : Config) (s : Store) (item : Item) : Store :=
  let typeName := cfg.itemLinkTypeName
  let s := (getCollection s typeName).1
  s.addNodeTo typeName (Entry.itemLink ⟨item.id, item.typeName, item.path⟩)

/-- `KenticoKontentSource.addContentNode(store, collection, node)`: if a
node with this id already exists, return it unchanged; otherwise resolve
the three field groups, insert the item, and derive an ItemLink node when
the insertion record is not a component. Returns the new store and the
returned record. -/
def addContentNode (cfg : Config) (s : Store) (typeName : String) (node : Node) :
    Store × Entry :=
  match s.findNode typeName node.item.id with
  | some existingNode => (s, existingNode)
  | none =>
      let s := addLinkedItemFields s typeName node
      let s := addTaxonomyFields cfg s typeName node
      let s := addAssetFields cfg s typeName node
      let collectionNode := Entry.content node.item
      let s := s.addNodeTo typeName collectionNode
      let s :=
        if !collectionNode.isComponent then addItemLinkNode cfg s node.item else s
      (s, collectionNode)

/-- The loop body of `addContentItemNodes`, one constructed node at a
time: get or create the node's collection, then add the node to it. -/
def contentItemStep (cfg : Config) (acc : Store) (node : Node) : Store :=
  let typeName := node.item.typeName
  let acc := (getCollection acc typeName).1
  (addContentNode cfg acc typeName node).1

/-- `KenticoKontentSource.addContentItemNodes(store, contentItems)`. -/
def addContentItemNodes (cfg : Config) (s : Store) (contentItems : List Node) :
    Store :=
  contentItems.foldl (contentItemStep cfg) s

/-- The delivery-client response for one content type: the primary entries
and the linked-items side table (an object keyed by id in JS, hence an
association list here). Nodes stand for the raw entries after construction. -/
structure Content where
  items : List Node
  linkedItems : List (String × Node)
deriving Repr

/-- `KenticoKontentSource.addContentNodes(store, contentType)` after the
fetch: stop when there are no content items; else add the linked item
nodes first (when any exist), then the content items. -/
def addContentNodes (cfg : Config) (s : Store) (content : Content) : Store :=
  let contentItems := content.items
  let linkedItems := content.linkedItems.map (fun kv => kv.2)
  if contentItems.length = 0 then
    -- There are no content items to process so we go no further
    s
  else
    let s :=
      if linkedItems.length > 0 then addContentItemNodes cfg s linkedItems else s
    addContentItemNodes cfg s contentItems

/-- `KenticoKontentSource.addAssetSchemaResolvers(store)`: get or create
the Asset collection; when it is empty, register nothing; else register
the asset schema resolvers for the Asset type name. -/
def addAssetSchemaResolvers (cfg : Config) (s : Store) : Store :=
  let typeName := cfg.assetTypeName
  let (s, assetCollection) := getCollection s typeName
  if assetCollection.nodes.length = 0 then
    -- There are no assets so no need for resolvers
    s
  else
    { s with resolvers := s.resolvers ++ [typeName] }

/-! ## Taxonomy term insertion

A raw taxonomy term as the delivery client hands it over. In JS the child
list `term.terms` may be absent (`undefined`) or malformed; `none` stands
for that case, `some` for a proper array. -/

inductive RTerm where
  | mk (id name slug : String) (terms : Option (List RTerm))
deriving Repr

/-- The term's id. -/
def RTerm.id : RTerm → String
  | .mk i _ _ _ => i

/-- The term's name. -/
def RTerm.name : RTerm → String
  | .mk _ n _ _ => n

/-- The term's slug. -/
def RTerm.slug : RTerm → String
  | .mk _ _ sl _ => sl

/-- The term's child list, `none` when absent or malformed. -/
def RTerm.terms : RTerm → Option (List RTerm)
  | .mk _ _ _ t => t

/-- The node `{id, name, slug, terms}` built for one taxonomy term;
`terms` holds the ids of the direct children. -/
structure TermNode where
  id : String
  name : String
  slug : String
  terms : List String
deriving Repr, DecidableEq

mutual

/-- `KenticoKontentSource.addTaxonomyTermNodes(collection, terms)`: the
sequence of term nodes passed to `collection.addNode`, in call order.
Building a node reads `term.terms.map(...)`, which in JS throws a
`TypeError` when the child list is absent or not an array; that throw is
the `Except.error` case. -/
def addTaxonomyTermNodes (terms : List RTerm) : Except String (List TermNode) :=
  if terms.length = 0 then
    Except.ok []
  else
    addTaxonomyTermNodesLoop terms

/-- The `for (const term of terms)` loop body of `addTaxonomyTermNodes`:
build and add the node for each term, then recurse into its children. -/
def addTaxonomyTermNodesLoop : List RTerm → Except String (List TermNode)
  | [] => Except.ok []
  | RTerm.mk _ _ _ none :: _ =>
      Except.error "TypeError: term.terms.map is not a function"
  | RTerm.mk i n sl (some children) :: rest =>
      let termNode : TermNode := ⟨i, n, sl, children.map (fun c => c.id)⟩
      match addTaxonomyTermNodes children with
      | Except.error e => Except.error e
      | Except.ok sub =>
          match addTaxonomyTermNodesLoop rest with
          | Except.error e => Except.error e
          | Except.ok tail => Except.ok (termNode :: (sub ++ tail))

end

/-! ## The image-URL schema resolver -/

/-- Character-wise model of the JS `String.prototype.toLowerCase` used by
the resolver (ASCII case mapping, which covers every string the source
matches on). -/
def toLowerCase (s : String) : String :=
  String.mk (s.data.map Char.toLower)

/-- `ImageFormatEnum` of the delivery SDK. -/
inductive ImageFormatEnum where
  | Gif | Jpg | Pjpg | Png | Png8 | Webp
deriving Repr, DecidableEq

/-- `ImageCompressionEnum` of the delivery SDK. -/
inductive ImageCompressionEnum where
  | Lossless | Lossy
deriving Repr, DecidableEq

/-- One call on the SDK's `ImageUrlBuilder`. The builder itself is an
external collaborator; the resolver's behaviour is the sequence of builder
calls it makes before `getUrl()`. -/
inductive BuilderOp where
  | withWidth (w : Int)
  | withHeight (h : Int)
  | withAutomaticFormat (f : ImageFormatEnum)
  | withFormat (f : ImageFormatEnum)
  | withCompression (c : ImageCompressionEnum)
  | withQuality (q : Int)
  | withDpr (d : Int)
deriving Repr, DecidableEq

/-- The arguments of the `url` field; every GraphQL argument defaults to
`null`, i.e. `none`. -/
structure ResolveArgs where
  width : Option Int
  height : Option Int
  automaticFormat : Option Bool
  format : Option String
  lossless : Option Bool
  quality : Option Int
  dpr : Option Int
deriving Repr, DecidableEq

/-- The `resolve(obj, args)` function of `getAssetSchemaResolvers`: the
builder calls applied to `new ImageUrlBuilder(obj.url)`, in order. `obj`
is an asset node; `obj.type` is its stored media type. -/
def resolve (obj : Asset) (args : ResolveArgs) : List BuilderOp :=
  let ops : List BuilderOp := []
  let ops := match args.width with
    | none => ops
    | some w => ops ++ [BuilderOp.withWidth w]
  let ops := match args.height with
    | none => ops
    | some h => ops ++ [BuilderOp.withHeight h]
  let ops := match args.automaticFormat with
    | none => ops
    | some automaticFormat =>
        if automaticFormat then
          match toLowerCase obj.mediaType with
          | "image/gif" => ops ++ [BuilderOp.withAutomaticFormat ImageFormatEnum.Gif]
          | "image/jpeg" => ops ++ [BuilderOp.withAutomaticFormat ImageFormatEnum.Jpg]
          | "image/png" => ops ++ [BuilderOp.withAutomaticFormat ImageFormatEnum.Png]
          | _ => ops
        else ops
  let ops := match args.format with
    | none => ops
    | some format =>
        match toLowerCase format with
        | "gif" => ops ++ [BuilderOp.withFormat ImageFormatEnum.Gif]
        | "jpg" => ops ++ [BuilderOp.withFormat ImageFormatEnum.Jpg]
        | "jpeg" => ops ++ [BuilderOp.withFormat ImageFormatEnum.Jpg]
        | "pjpg" => ops ++ [BuilderOp.withFormat ImageFormatEnum.Pjpg]
        | "pjpeg" => ops ++ [BuilderOp.withFormat ImageFormatEnum.Pjpg]
        | "png" => ops ++ [BuilderOp.withFormat ImageFormatEnum.Png]
        | "png8" => ops ++ [BuilderOp.withFormat ImageFormatEnum.Png8]
        | "webp" => ops ++ [BuilderOp.withFormat ImageFormatEnum.Webp]
        | _ => ops
  let ops := match args.lossless with
    | none => ops
    | some lossless =>
        let compression :=
          if lossless then ImageCompressionEnum.Lossless else ImageCompressionEnum.Lossy
        ops ++ [BuilderOp.withCompression compression]
  let ops := match args.quality with
    | none => ops
    | some q => ops ++ [BuilderOp.withQuality q]
  match args.dpr with
  | none => ops
  | some d => ops ++ [BuilderOp.withDpr d]

/-! ## Specification-side definitions

These restate parts of the specification in their own words, to be
compared with the functions embedded from the source above. -/

mutual

/-- A term is well formed when its child list is present and all children
are well formed — the inputs the delivery client actually produces. -/
def RTerm.wellFormed : RTerm → Bool
  | .mk _ _ _ none => false
  | .mk _ _ _ (some children) => wellFormedForest children

/-- All terms of a forest are well formed. -/
def wellFormedForest : List RTerm → Bool
  | [] => true
  | t :: ts => t.wellFormed && wellFormedForest ts

end

/-- Pre-order depth-first traversal of a term forest: each term before its
descendants, a term's whole subtree before the next sibling. -/
def preorderTerms : List RTerm → List RTerm
  | [] => []
  | t :: ts => t :: (preorderTerms (t.terms.getD []) ++ preorderTerms ts)
termination_by ts => sizeOf ts
decreasing_by
  · cases t with
    | mk i n sl c =>
        cases c <;> simp [RTerm.terms] <;> try omega
  · simp
    try omega

/-- The node the specification says is built for a term: its scalar
attributes plus the ids of its direct children, not embedded copies. -/
def termNodeOf (t : RTerm) : TermNode :=
  ⟨t.id, t.name, t.slug, (t.terms.getD []).map RTerm.id⟩

/-- Spec side of §4.5: the dimension builder calls (width, then height). -/
def dimensionOps (args : ResolveArgs) : List BuilderOp :=
  (match args.width with
    | none => []
    | some w => [BuilderOp.withWidth w]) ++
  (match args.height with
    | none => []
    | some h => [BuilderOp.withHeight h])

/-- Spec side of §4.5 as amended: the automatic-format builder call chosen
from the stored media type when `automaticFormat` is true. -/
def automaticFormatOps (mediaType : String) (automaticFormat : Option Bool) :
    List BuilderOp :=
  match automaticFormat with
  | none => []
  | some b =>
      if b then
        match toLowerCase mediaType with
        | "image/gif" => [BuilderOp.withAutomaticFormat ImageFormatEnum.Gif]
        | "image/jpeg" => [BuilderOp.withAutomaticFormat ImageFormatEnum.Jpg]
        | "image/png" => [BuilderOp.withAutomaticFormat ImageFormatEnum.Png]
        | _ => []
      else []

/-- Spec side of §4.5 as amended: the explicit-format builder call mapped
case-insensitively from the `format` argument, applied independently of
`automaticFormat`. -/
def explicitFormatOps (format : Option String) : List BuilderOp :=
  match format with
  | none => []
  | some f =>
      match toLowerCase f with
      | "gif" => [BuilderOp.withFormat ImageFormatEnum.Gif]
      | "jpg" => [BuilderOp.withFormat ImageFormatEnum.Jpg]
      | "jpeg" => [BuilderOp.withFormat ImageFormatEnum.Jpg]
      | "pjpg" => [BuilderOp.withFormat ImageFormatEnum.Pjpg]
      | "pjpeg" => [BuilderOp.withFormat ImageFormatEnum.Pjpg]
      | "png" => [BuilderOp.withFormat ImageFormatEnum.Png]
      | "png8" => [BuilderOp.withFormat ImageFormatEnum.Png8]
      | "webp" => [BuilderOp.withFormat ImageFormatEnum.Webp]
      | _ => []

/-- Spec side of §4.5: the compression builder call. -/
def compressionOps (lossless : Option Bool) : List BuilderOp :=
  match lossless with
  | none => []
  | some l =>
      [BuilderOp.withCompression
        (if l then ImageCompressionEnum.Lossless else ImageCompressionEnum.Lossy)]

/-- Spec side of §4.5: the quality builder call. -/
def qualityOps (quality : Option Int) : List BuilderOp :=
  match quality with
  | none => []
  | some q => [BuilderOp.withQuality q]

/-- Spec side of §4.5: the device-pixel-ratio builder call. -/
def dprOps (dpr : Option Int) : List BuilderOp :=
  match dpr with
  | none => []
  | some d => [BuilderOp.withDpr d]

/-- The reference declarations on the named collection (empty when the
collection does not exist). -/
def Store.refsOf (s : Store) (typeName : String) : List (String × String) :=
  match s.find? typeName with
  | none => []
  | some c => c.refs

/-- The ids of the nodes of the Asset collection, in insertion order. -/
def assetIds (cfg : Config) (s : Store) : List String :=
  match s.find? cfg.assetTypeName with
  | none => []
  | some c => c.nodes.map Entry.id

/-! ## Sample data used by the concrete witnesses -/

/-- The default plugin configuration's type names. -/
def sampleCfg : Config :=
  ⟨"Asset", "ItemLink", fun codename => "Taxonomy" ++ codename⟩

/-- A store with no collections. -/
def emptyStore : Store := ⟨[], []⟩

/-- A sample constructed node with one empty linked-item field, one empty
asset field, and no taxonomy fields. -/
def sampleNode : Node :=
  ⟨⟨"item-1", "Article", "/article/item-1", false⟩,
   [⟨"related", []⟩], [], [⟨"images", []⟩]⟩

/-- A sample node whose linked-item field holds items of two different
types and whose asset field holds one asset twice-referenced elsewhere. -/
def sampleNode2 : Node :=
  ⟨⟨"item-2", "Article", "/article/item-2", false⟩,
   [⟨"related", [⟨"li-1", "Article"⟩, ⟨"li-2", "Author"⟩]⟩], [],
   [⟨"images", [⟨"A1", "https://assets/x", "image/png"⟩]⟩,
    ⟨"banner", [⟨"A1", "https://assets/x", "image/png"⟩]⟩]⟩

/-- A store already holding an (empty) collection named `Article`. -/
def articleStore : Store := ⟨[("Article", Collection.empty)], []⟩

/-- A sample linked-item node of a different type than the primary entry. -/
def sampleLinkedNode : Node :=
  ⟨⟨"li-1", "Author", "/author/li-1", false⟩, [], [], []⟩

/-- A sample delivery-client response: one primary entry and one entry in
the linked-items side table. -/
def sampleContent : Content :=
  ⟨[sampleNode], [("li-1", sampleLinkedNode)]⟩

/-- The tree `A -> [B, C]`, `B -> [D]` of the specification's example. -/
def sampleForest : List RTerm :=
  [RTerm.mk "A" "A" "a"
    (some [RTerm.mk "B" "B" "b" (some [RTerm.mk "D" "D" "d" (some [])]),
           RTerm.mk "C" "C" "c" (some [])])]

/-! ## Block lemmas for the image-URL resolver -/

theorem resolve_width_block (ops : List BuilderOp) (w : Option Int) :
    (match w with
      | none => ops
      | some w => ops ++ [BuilderOp.withWidth w]) =
      ops ++
        (match w with
          | none => []
          | some w => [BuilderOp.withWidth w]) := by
  cases w <;> simp

theorem resolve_height_block (ops : List BuilderOp) (h : Option Int) :
    (match h with
      | none => ops
      | some h => ops ++ [BuilderOp.withHeight h]) =
      ops ++
        (match h with
          | none => []
          | some h => [BuilderOp.withHeight h]) := by
  cases h <;> simp

theorem resolve_auto_block (ops : List BuilderOp) (mt : String) (af : Option Bool) :
    (match af with
      | none => ops
      | some automaticFormat =>
          if automaticFormat then
            match toLowerCase mt with
            | "image/gif" => ops ++ [BuilderOp.withAutomaticFormat ImageFormatEnum.Gif]
            | "image/jpeg" => ops ++ [BuilderOp.withAutomaticFormat ImageFormatEnum.Jpg]
            | "image/png" => ops ++ [BuilderOp.withAutomaticFormat ImageFormatEnum.Png]
            | _ => ops
          else ops) =
      ops ++ automaticFormatOps mt af := by
  cases af with
  | none => simp [automaticFormatOps]
  | some b =>
      cases b with
      | false => simp [automaticFormatOps]
      | true =>
          simp only [automaticFormatOps, if_true]
          split <;> simp_all

theorem resolve_format_block (ops : List BuilderOp) (fm : Option String) :
    (match fm with
      | none => ops
      | some format =>
          match toLowerCase format with
          | "gif" => ops ++ [BuilderOp.withFormat ImageFormatEnum.Gif]
          | "jpg" => ops ++ [BuilderOp.withFormat ImageFormatEnum.Jpg]
          | "jpeg" => ops ++ [BuilderOp.withFormat ImageFormatEnum.Jpg]
          | "pjpg" => ops ++ [BuilderOp.withFormat ImageFormatEnum.Pjpg]
          | "pjpeg" => ops ++ [BuilderOp.withFormat ImageFormatEnum.Pjpg]
          | "png" => ops ++ [BuilderOp.withFormat ImageFormatEnum.Png]
          | "png8" => ops ++ [BuilderOp.withFormat ImageFormatEnum.Png8]
          | "webp" => ops ++ [BuilderOp.withFormat ImageFormatEnum.Webp]
          | _ => ops) =
      ops ++ explicitFormatOps fm := by
  cases fm with
  | none => simp [explicitFormatOps]
  | some f =>
      simp only [explicitFormatOps]
      split <;> simp_all

theorem resolve_lossless_block (ops : List BuilderOp) (ls : Option Bool) :
    (match ls with
      | none => ops
      | some lossless =>
          let compression :=
            if lossless then ImageCompressionEnum.Lossless
            else ImageCompressionEnum.Lossy
          ops ++ [BuilderOp.withCompression compression]) =
      ops ++ compressionOps ls := by
  cases ls <;> simp [compressionOps]

theorem resolve_quality_block (ops : List BuilderOp) (q : Option Int) :
    (match q with
      | none => ops
      | some q => ops ++ [BuilderOp.withQuality q]) =
      ops ++ qualityOps q := by
  cases q <;> simp [qualityOps]

theorem resolve_dpr_block (ops : List BuilderOp) (d : Option Int) :
    (match d with
      | none => ops
      | some d => ops ++ [BuilderOp.withDpr d]) =
      ops ++ dprOps d := by
  cases d <;> simp [dprOps]

/-- `resolve` decomposed into the spec's parameter segments, in the code's
application order: dimensions, automatic format, explicit format,
compression, quality, dpr — with the automatic and the explicit format
segments independent of each other. -/
theorem resolve_characterization (obj : Asset) (args : ResolveArgs) :
    resolve obj args =
      dimensionOps args ++ automaticFormatOps obj.mediaType args.automaticFormat ++
        explicitFormatOps args.format ++ compressionOps args.lossless ++
        qualityOps args.quality ++ dprOps args.dpr := by
  simp only [resolve]
  rw [resolve_width_block, resolve_height_block, resolve_auto_block,
    resolve_format_block, resolve_lossless_block, resolve_quality_block,
    resolve_dpr_block]
  simp [dimensionOps, List.append_assoc]

/-! ## Store lemmas -/

theorem Store.find?_modify (s : Store) (tn tn' : String) (f : Collection → Collection) :
    (s.modify tn f).find? tn' =
      if tn' = tn then (s.find? tn').map f else s.find? tn' := by
  simp only [Store.modify, Store.find?, List.find?_map]
  have hpred : ((fun kv : String × Collection => kv.1 == tn') ∘
      (fun kv : String × Collection => if kv.1 == tn then (kv.1, f kv.2) else kv)) =
      (fun kv : String × Collection => kv.1 == tn') := by
    funext kv
    by_cases h : kv.1 == tn <;> simp [Function.comp, h]
  rw [hpred]
  cases hfind : s.collections.find? (fun kv => kv.1 == tn') with
  | none => simp
  | some kv0 =>
      have hk : kv0.1 = tn' := by
        have := List.find?_some hfind
        simpa using this
      by_cases htn : tn' = tn
      · subst htn
        simp [hk]
      · have hne : (kv0.1 == tn) = false := by
          simp [hk]
          exact htn
        simp [htn, hne, hk]

theorem Store.find?_addNodeTo (s : Store) (tn tn' : String) (e : Entry) :
    (s.addNodeTo tn e).find? tn' =
      if tn' = tn then (s.find? tn').map (fun c => { c with nodes := c.nodes ++ [e] })
      else s.find? tn' := by
  simp [Store.addNodeTo, Store.find?_modify]

theorem Store.find?_addReference (s : Store) (tn tn' fieldName target : String) :
    (s.addReference tn fieldName target).find? tn' =
      if tn' = tn then
        (s.find? tn').map (fun c => { c with refs := c.refs ++ [(fieldName, target)] })
      else s.find? tn' := by
  simp [Store.addReference, Store.find?_modify]

theorem find?_getCollection (s : Store) (tn tn' : String) :
    (getCollection s tn).1.find? tn' =
      if tn' = tn then some (getCollection s tn).2 else s.find? tn' := by
  unfold getCollection
  cases hfind : s.find? tn with
  | some c =>
      by_cases htn : tn' = tn
      · subst htn
        simp [hfind]
      · simp [htn]
  | none =>
      simp only [Store.find?] at hfind ⊢
      rw [List.find?_append]
      by_cases htn : tn' = tn
      · subst htn
        simp only [Option.map_eq_none'] at hfind
        simp [hfind]
      · have : (tn == tn') = false := by
          simp
          exact fun h => htn h.symm
        simp [this, htn]

/-- Collection membership is stable: no operation removes a collection. -/
theorem Store.isSome_find?_modify (s : Store) (tn tn' : String)
    (f : Collection → Collection) :
    ((s.modify tn f).find? tn').isSome = (s.find? tn').isSome := by
  rw [Store.find?_modify]
  by_cases h : tn' = tn <;> simp [h]

theorem isSome_find?_getCollection (s : Store) (tn tn' : String)
    (h : (s.find? tn').isSome) : ((getCollection s tn).1.find? tn').isSome := by
  rw [find?_getCollection]
  by_cases htn : tn' = tn <;> simp [htn, h]

/-- `refsOf` after `addReference`: appended on the named collection (when
it exists), untouched on every other collection. -/
theorem refsOf_addReference_self (s : Store) (tn fieldName target : String)
    (h : (s.find? tn).isSome) :
    (s.addReference tn fieldName target).refsOf tn =
      s.refsOf tn ++ [(fieldName, target)] := by
  obtain ⟨c, hc⟩ := Option.isSome_iff_exists.mp h
  simp [Store.refsOf, Store.find?_addReference, hc]

theorem refsOf_addReference_ne (s : Store) (tn tn' fieldName target : String)
    (h : tn' ≠ tn) :
    (s.addReference tn fieldName target).refsOf tn' = s.refsOf tn' := by
  simp [Store.refsOf, Store.find?_addReference, h]

/-- `addNodeTo` never changes reference declarations. -/
theorem refsOf_addNodeTo (s : Store) (tn tn' : String) (e : Entry) :
    (s.addNodeTo tn e).refsOf tn' = s.refsOf tn' := by
  by_cases htn : tn' = tn
  · subst htn
    simp only [Store.refsOf, Store.find?_addNodeTo, if_pos rfl]
    cases s.find? tn' <;> simp
  · simp [Store.refsOf, Store.find?_addNodeTo, htn]

/-- `getCollection` never changes reference declarations: an existing
collection is untouched and a created one starts with no references. -/
theorem refsOf_getCollection (s : Store) (tn tn' : String) :
    (getCollection s tn).1.refsOf tn' = s.refsOf tn' := by
  by_cases htn : tn' = tn
  · subst htn
    simp only [Store.refsOf, find?_getCollection, if_pos rfl]
    unfold getCollection
    cases hfind : s.find? tn' <;> simp [hfind, Collection.empty]
  · simp [Store.refsOf, find?_getCollection, htn]

/-! ## Reference declarations of the three field passes -/

/-- The reference a non-empty linked-item field contributes: its field
name, mapped to the type name of the field's first linked item. -/
def linkedFieldRef (f : LinkedItemField) : String × String :=
  (f.fieldName, (f.linkedItems.map (fun li => li.typeName)).headD "")

/-- `linkedItemFieldStep` on a field with no linked items is a no-op. -/
theorem linkedItemFieldStep_empty (tn : String) (acc : Store)
    (f : LinkedItemField) (h : f.linkedItems = []) :
    linkedItemFieldStep tn acc f = acc := by
  simp [linkedItemFieldStep, h]

/-- `linkedItemFieldStep` on a non-empty field declares one reference to
the first linked item's type name. -/
theorem linkedItemFieldStep_cons (tn : String) (acc : Store)
    (f : LinkedItemField) (li : LinkedItem) (lis : List LinkedItem)
    (h : f.linkedItems = li :: lis) :
    linkedItemFieldStep tn acc f = acc.addReference tn f.fieldName li.typeName := by
  simp [linkedItemFieldStep, h]

/-- `linkedItemFieldStep` keeps every collection in existence. -/
theorem find?_isSome_linkedItemFieldStep (tn tn' : String) (acc : Store)
    (f : LinkedItemField) :
    ((linkedItemFieldStep tn acc f).find? tn').isSome = (acc.find? tn').isSome := by
  unfold linkedItemFieldStep
  split
  · rfl
  · simp [Store.addReference, Store.isSome_find?_modify]

theorem foldl_linkedFields_refsOf (tn : String) :
    ∀ (fields : List LinkedItemField) (s : Store), (s.find? tn).isSome →
      (fields.foldl (linkedItemFieldStep tn) s).refsOf tn =
        s.refsOf tn ++
          (fields.filter (fun f => !f.linkedItems.isEmpty)).map linkedFieldRef
  | [], s, _ => by simp
  | f :: rest, s, h => by
      simp only [List.foldl_cons]
      cases hf : f.linkedItems with
      | nil =>
          rw [linkedItemFieldStep_empty tn s f hf]
          rw [foldl_linkedFields_refsOf tn rest s h]
          simp [hf]
      | cons li lis =>
          rw [linkedItemFieldStep_cons tn s f li lis hf]
          have h' : ((s.addReference tn f.fieldName li.typeName).find? tn).isSome := by
            rw [Store.find?_addReference]
            simp [h]
          rw [foldl_linkedFields_refsOf tn rest _ h']
          rw [refsOf_addReference_self s tn _ _ h]
          simp [hf, linkedFieldRef, List.filter_cons, List.append_assoc]

/-- C9-relevant characterization of `addLinkedItemFields`: the references
declared on the owning collection are exactly one per non-empty
linked-item field, each mapping the field name to the first linked item's
type name. -/
theorem refsOf_addLinkedItemFields (s : Store) (tn : String) (node : Node)
    (h : (s.find? tn).isSome) :
    (addLinkedItemFields s tn node).refsOf tn =
      s.refsOf tn ++
        (node.linkedItemFields.filter (fun f => !f.linkedItems.isEmpty)).map
          linkedFieldRef := by
  unfold addLinkedItemFields
  exact foldl_linkedFields_refsOf tn node.linkedItemFields s h

/-- The inner per-field asset loop never declares references. -/
theorem foldl_assets_refsOf (assetTypeName tn' : String) :
    ∀ (assets : List Asset) (acc : Store),
      (assets.foldl (assetStep assetTypeName) acc).refsOf tn' = acc.refsOf tn'
  | [], _ => rfl
  | a :: rest, acc => by
      simp only [List.foldl_cons]
      rw [foldl_assets_refsOf assetTypeName tn' rest _]
      unfold assetStep
      cases acc.findNode assetTypeName a.id <;> simp [refsOf_addNodeTo]

/-- The inner per-field asset loop keeps every collection in existence. -/
theorem foldl_assets_find?_isSome (assetTypeName tn' : String) :
    ∀ (assets : List Asset) (acc : Store),
      ((assets.foldl (assetStep assetTypeName) acc).find? tn').isSome =
        (acc.find? tn').isSome
  | [], _ => rfl
  | a :: rest, acc => by
      simp only [List.foldl_cons]
      rw [foldl_assets_find?_isSome assetTypeName tn' rest _]
      unfold assetStep
      cases acc.findNode assetTypeName a.id <;>
        simp [Store.addNodeTo, Store.isSome_find?_modify]

/-- `assetFieldStep` keeps every collection in existence. -/
theorem find?_isSome_assetFieldStep (assetTypeName tn tn' : String) (acc : Store)
    (f : AssetField) :
    ((assetFieldStep assetTypeName tn acc f).find? tn').isSome =
      (acc.find? tn').isSome := by
  unfold assetFieldStep
  rw [Store.addReference, Store.isSome_find?_modify, foldl_assets_find?_isSome]

theorem foldl_assetFields_refsOf (assetTypeName tn : String) :
    ∀ (fields : List AssetField) (s : Store), (s.find? tn).isSome →
      (fields.foldl (assetFieldStep assetTypeName tn) s).refsOf tn =
        s.refsOf tn ++ fields.map (fun f => (f.fieldName, assetTypeName))
  | [], s, _ => by simp
  | f :: rest, s, h => by
      simp only [List.foldl_cons]
      have h1 : ((f.assets.foldl (assetStep assetTypeName) s).find? tn).isSome := by
        rw [foldl_assets_find?_isSome]
        exact h
      have h2 : ((assetFieldStep assetTypeName tn s f).find? tn).isSome := by
        rw [find?_isSome_assetFieldStep]
        exact h
      rw [foldl_assetFields_refsOf assetTypeName tn rest _ h2]
      unfold assetFieldStep
      rw [refsOf_addReference_self _ tn _ _ h1]
      rw [foldl_assets_refsOf]
      simp

/-- C4-relevant characterization of `addAssetFields`: every asset field —
empty or not — declares a reference from its field name to the Asset
collection's type name, and nothing else is declared on the owning
collection. -/
theorem refsOf_addAssetFields (cfg : Config) (s : Store) (tn : String) (node : Node)
    (h : (s.find? tn).isSome) :
    (addAssetFields cfg s tn node).refsOf tn =
      s.refsOf tn ++ node.assetFields.map (fun f => (f.fieldName, cfg.assetTypeName)) := by
  unfold addAssetFields
  rw [foldl_assetFields_refsOf cfg.assetTypeName tn node.assetFields _
      (isSome_find?_getCollection s cfg.assetTypeName tn h)]
  rw [refsOf_getCollection]

/-! ## Node presence and store monotonicity

No operation of the source ever removes a collection or a node; `Store.le`
captures exactly that, and is what the ordering and dedup claims need. -/

/-- `s ≤ s'`: every collection of `s` still exists in `s'`, and every node
findable in `s` is still findable in `s'`. -/
def Store.le (s s' : Store) : Prop :=
  (∀ tn, (s.find? tn).isSome → (s'.find? tn).isSome) ∧
  (∀ tn id, (s.findNode tn id).isSome → (s'.findNode tn id).isSome)

theorem Store.le_refl (s : Store) : Store.le s s :=
  ⟨fun _ h => h, fun _ _ h => h⟩

theorem Store.le_trans {s1 s2 s3 : Store} (h1 : Store.le s1 s2)
    (h2 : Store.le s2 s3) : Store.le s1 s3 :=
  ⟨fun tn h => h2.1 tn (h1.1 tn h), fun tn id h => h2.2 tn id (h1.2 tn id h)⟩

/-- `addReference` touches no nodes. -/
theorem Store.findNode_addReference (s : Store) (tn tn' fieldName target id : String) :
    (s.addReference tn fieldName target).findNode tn' id = s.findNode tn' id := by
  unfold Store.findNode
  rw [Store.find?_addReference]
  by_cases htn : tn' = tn
  · subst htn
    cases s.find? tn' <;> simp
  · simp [htn]

theorem Store.le_addReference (s : Store) (tn fieldName target : String) :
    Store.le s (s.addReference tn fieldName target) := by
  constructor
  · intro tn' h
    rw [Store.addReference, Store.isSome_find?_modify]
    exact h
  · intro tn' id h
    rw [Store.findNode_addReference]
    exact h

/-- `addNodeTo` appends, so whatever was findable stays findable. -/
theorem Store.le_addNodeTo (s : Store) (tn : String) (e : Entry) :
    Store.le s (s.addNodeTo tn e) := by
  constructor
  · intro tn' h
    rw [Store.addNodeTo, Store.isSome_find?_modify]
    exact h
  · intro tn' id h
    unfold Store.findNode at h ⊢
    rw [Store.find?_addNodeTo]
    by_cases htn : tn' = tn
    · subst htn
      cases hc : s.find? tn' with
      | none => rw [hc] at h; simp at h
      | some c =>
          rw [hc] at h
          simp [List.find?_append, h]
    · simp [htn]
      exact h

/-- `getCollection` touches no nodes of any collection. -/
theorem Store.findNode_getCollection (s : Store) (tn tn' id : String) :
    (getCollection s tn).1.findNode tn' id = s.findNode tn' id := by
  unfold Store.findNode
  rw [find?_getCollection]
  by_cases htn : tn' = tn
  · subst htn
    unfold getCollection
    cases hc : s.find? tn' <;> simp [hc, Collection.empty]
  · simp [htn]

theorem Store.le_getCollection (s : Store) (tn : String) :
    Store.le s (getCollection s tn).1 := by
  constructor
  · intro tn' h
    exact isSome_find?_getCollection s tn tn' h
  · intro tn' id h
    rw [Store.findNode_getCollection]
    exact h

/-- A fold of `Store.le`-respecting steps respects `Store.le`. -/
theorem Store.le_foldl {α : Type} (step : Store → α → Store)
    (hstep : ∀ acc x, Store.le acc (step acc x)) :
    ∀ (l : List α) (s : Store), Store.le s (l.foldl step s)
  | [], s => Store.le_refl s
  | x :: rest, s =>
      Store.le_trans (hstep s x) (Store.le_foldl step hstep rest (step s x))

theorem Store.le_linkedItemFieldStep (tn : String) (acc : Store)
    (f : LinkedItemField) : Store.le acc (linkedItemFieldStep tn acc f) := by
  unfold linkedItemFieldStep
  split
  · exact Store.le_refl acc
  · exact Store.le_addReference acc tn f.fieldName _

theorem Store.le_addLinkedItemFields (s : Store) (tn : String) (node : Node) :
    Store.le s (addLinkedItemFields s tn node) :=
  Store.le_foldl _ (Store.le_linkedItemFieldStep tn) node.linkedItemFields s

theorem Store.le_taxonomyFieldStep (cfg : Config) (tn : String) (acc : Store)
    (f : TaxonomyField) : Store.le acc (taxonomyFieldStep cfg tn acc f) :=
  Store.le_addReference acc tn f.fieldName _

theorem Store.le_addTaxonomyFields (cfg : Config) (s : Store) (tn : String)
    (node : Node) : Store.le s (addTaxonomyFields cfg s tn node) :=
  Store.le_foldl _ (Store.le_taxonomyFieldStep cfg tn) node.taxonomyFields s

theorem Store.le_assetStep (assetTypeName : String) (acc : Store) (a : Asset) :
    Store.le acc (assetStep assetTypeName acc a) := by
  unfold assetStep
  split
  · exact Store.le_refl acc
  · exact Store.le_addNodeTo acc assetTypeName _

theorem Store.le_assetFieldStep (assetTypeName tn : String) (acc : Store)
    (f : AssetField) : Store.le acc (assetFieldStep assetTypeName tn acc f) :=
  Store.le_trans
    (Store.le_foldl _ (Store.le_assetStep assetTypeName) f.assets acc)
    (Store.le_addReference _ tn f.fieldName assetTypeName)

theorem Store.le_addAssetFields (cfg : Config) (s : Store) (tn : String)
    (node : Node) : Store.le s (addAssetFields cfg s tn node) :=
  Store.le_trans (Store.le_getCollection s cfg.assetTypeName)
    (Store.le_foldl _ (Store.le_assetFieldStep cfg.assetTypeName tn)
      node.assetFields _)

theorem Store.le_addItemLinkNode (cfg : Config) (s : Store) (item : Item) :
    Store.le s (addItemLinkNode cfg s item) :=
  Store.le_trans (Store.le_getCollection s cfg.itemLinkTypeName)
    (Store.le_addNodeTo _ cfg.itemLinkTypeName _)

theorem Store.le_addContentNode (cfg : Config) (s : Store) (tn : String)
    (node : Node) : Store.le s (addContentNode cfg s tn node).1 := by
  unfold addContentNode
  cases hfind : s.findNode tn node.item.id with
  | some e => exact Store.le_refl s
  | none =>
      simp only
      refine Store.le_trans (Store.le_addLinkedItemFields s tn node) ?_
      refine Store.le_trans (Store.le_addTaxonomyFields cfg _ tn node) ?_
      refine Store.le_trans (Store.le_addAssetFields cfg _ tn node) ?_
      refine Store.le_trans (Store.le_addNodeTo _ tn (Entry.content node.item)) ?_
      split
      · exact Store.le_addItemLinkNode cfg _ node.item
      · exact Store.le_refl _

theorem Store.le_contentItemStep (cfg : Config) (acc : Store) (node : Node) :
    Store.le acc (contentItemStep cfg acc node) :=
  Store.le_trans (Store.le_getCollection acc node.item.typeName)
    (Store.le_addContentNode cfg _ node.item.typeName node)

theorem Store.le_addContentItemNodes (cfg : Config) (s : Store)
    (nodes : List Node) : Store.le s (addContentItemNodes cfg s nodes) :=
  Store.le_foldl _ (Store.le_contentItemStep cfg) nodes s

/-- After an `addNodeTo` of an entry with the sought id (on an existing
collection), `findNode` succeeds. -/
theorem Store.findNode_isSome_addNodeTo_self (s : Store) (tn : String) (e : Entry)
    (h : (s.find? tn).isSome) :
    ((s.addNodeTo tn e).findNode tn e.id).isSome := by
  obtain ⟨c, hc⟩ := Option.isSome_iff_exists.mp h
  unfold Store.findNode
  rw [Store.find?_addNodeTo, if_pos rfl, hc]
  simp [List.find?_append]

/-- After `addContentNode` on an existing collection, a node with the
item's id is findable — whether it was already there or was inserted. -/
theorem findNode_isSome_addContentNode (cfg : Config) (s : Store) (tn : String)
    (node : Node) (h : (s.find? tn).isSome) :
    ((addContentNode cfg s tn node).1.findNode tn node.item.id).isSome := by
  unfold addContentNode
  cases hfind : s.findNode tn node.item.id with
  | some e => simp [hfind]
  | none =>
      simp only
      have hle1 := Store.le_addLinkedItemFields s tn node
      have hle2 := Store.le_addTaxonomyFields cfg (addLinkedItemFields s tn node) tn node
      have hle3 := Store.le_addAssetFields cfg
        (addTaxonomyFields cfg (addLinkedItemFields s tn node) tn node) tn node
      have hsome : (((addAssetFields cfg
          (addTaxonomyFields cfg (addLinkedItemFields s tn node) tn node) tn
          node).find? tn)).isSome :=
        hle3.1 tn (hle2.1 tn (hle1.1 tn h))
      have hins := Store.findNode_isSome_addNodeTo_self _ tn (Entry.content node.item)
        hsome
      split
      · exact (Store.le_addItemLinkNode cfg _ node.item).2 tn _ hins
      · exact hins

/-- After the loop of `addContentItemNodes`, every processed node's id is
findable in its collection. -/
theorem findNode_isSome_addContentItemNodes (cfg : Config) :
    ∀ (nodes : List Node) (s : Store), ∀ node ∈ nodes,
      ((addContentItemNodes cfg s nodes).findNode node.item.typeName
        node.item.id).isSome
  | [], _, node, hmem => by simp at hmem
  | n :: rest, s, node, hmem => by
      rcases List.mem_cons.mp hmem with hn | hrest
      · subst hn
        have hstep : ((contentItemStep cfg s node).findNode node.item.typeName
            node.item.id).isSome := by
          unfold contentItemStep
          refine findNode_isSome_addContentNode cfg _ node.item.typeName node ?_
          rw [find?_getCollection]
          simp
        have hle : Store.le (contentItemStep cfg s node)
            (addContentItemNodes cfg (contentItemStep cfg s node) rest) :=
          Store.le_addContentItemNodes cfg _ rest
        have : addContentItemNodes cfg s (node :: rest) =
            addContentItemNodes cfg (contentItemStep cfg s node) rest := by
          simp [addContentItemNodes]
        rw [this]
        exact hle.2 _ _ hstep
      · have : addContentItemNodes cfg s (n :: rest) =
            addContentItemNodes cfg (contentItemStep cfg s n) rest := by
          simp [addContentItemNodes]
        rw [this]
        exact findNode_isSome_addContentItemNodes cfg rest
          (contentItemStep cfg s n) node hrest

/-! ## Existence of the Asset collection -/

theorem find?_isSome_getCollection_self (s : Store) (tn : String) :
    ((getCollection s tn).1.find? tn).isSome := by
  rw [find?_getCollection]
  simp

theorem foldl_assetFields_find?_isSome (assetTypeName tn tn' : String) :
    ∀ (fields : List AssetField) (acc : Store),
      ((fields.foldl (assetFieldStep assetTypeName tn) acc).find? tn').isSome =
        (acc.find? tn').isSome
  | [], _ => rfl
  | f :: rest, acc => by
      simp only [List.foldl_cons]
      rw [foldl_assetFields_find?_isSome assetTypeName tn tn' rest _]
      exact find?_isSome_assetFieldStep assetTypeName tn tn' acc f

/-- `addAssetFields` always leaves the Asset collection in existence — it
gets-or-creates it before looking at the (possibly empty) field list. -/
theorem find?_isSome_addAssetFields (cfg : Config) (s : Store) (tn : String)
    (node : Node) :
    ((addAssetFields cfg s tn node).find? cfg.assetTypeName).isSome := by
  simp only [addAssetFields]
  rw [foldl_assetFields_find?_isSome]
  exact find?_isSome_getCollection_self s cfg.assetTypeName

/-- `getCollection` never touches the registered resolvers. -/
theorem resolvers_getCollection (s : Store) (tn : String) :
    (getCollection s tn).1.resolvers = s.resolvers := by
  unfold getCollection
  cases s.find? tn <;> rfl

/-! ## Asset deduplication -/

theorem assetIds_addReference (cfg : Config) (s : Store)
    (tn fieldName target : String) :
    assetIds cfg (s.addReference tn fieldName target) = assetIds cfg s := by
  unfold assetIds
  rw [Store.find?_addReference]
  by_cases h : cfg.assetTypeName = tn
  · rw [if_pos h]
    cases s.find? cfg.assetTypeName <;> simp
  · rw [if_neg h]

theorem assetIds_getCollection (cfg : Config) (s : Store) (tn : String) :
    assetIds cfg (getCollection s tn).1 = assetIds cfg s := by
  unfold assetIds
  rw [find?_getCollection]
  by_cases h : cfg.assetTypeName = tn
  · rw [if_pos h]
    subst h
    unfold getCollection
    cases hs : s.find? cfg.assetTypeName <;> simp [hs, Collection.empty]
  · rw [if_neg h]

theorem assetIds_addNodeTo_ne (cfg : Config) (s : Store) (tn : String) (e : Entry)
    (h : ¬cfg.assetTypeName = tn) :
    assetIds cfg (s.addNodeTo tn e) = assetIds cfg s := by
  unfold assetIds
  rw [Store.find?_addNodeTo, if_neg h]

theorem assetIds_addNodeTo_self (cfg : Config) (s : Store) (e : Entry)
    (h : (s.find? cfg.assetTypeName).isSome) :
    assetIds cfg (s.addNodeTo cfg.assetTypeName e) = assetIds cfg s ++ [e.id] := by
  obtain ⟨c, hc⟩ := Option.isSome_iff_exists.mp h
  unfold assetIds
  rw [Store.find?_addNodeTo, if_pos rfl, hc]
  simp

/-- An id is in the Asset collection's id list iff `findNode` finds it. -/
theorem mem_assetIds_iff (cfg : Config) (s : Store) (id : String) :
    id ∈ assetIds cfg s ↔ (s.findNode cfg.assetTypeName id).isSome := by
  unfold assetIds Store.findNode
  cases s.find? cfg.assetTypeName with
  | none => simp
  | some c =>
      simp only [List.find?_isSome, List.mem_map]
      constructor
      · rintro ⟨e, he, rfl⟩
        exact ⟨e, he, by simp⟩
      · rintro ⟨e, he, hid⟩
        exact ⟨e, he, by simpa using hid⟩

/-- One `assetStep`: the id list is unchanged when the asset's id is
already present, else gets the id appended. -/
theorem assetIds_assetStep (cfg : Config) (s : Store) (a : Asset)
    (h : (s.find? cfg.assetTypeName).isSome) :
    assetIds cfg (assetStep cfg.assetTypeName s a) =
      if a.id ∈ assetIds cfg s then assetIds cfg s
      else assetIds cfg s ++ [a.id] := by
  unfold assetStep
  cases hf : s.findNode cfg.assetTypeName a.id with
  | some e =>
      have : a.id ∈ assetIds cfg s := by
        rw [mem_assetIds_iff, hf]
        rfl
      simp [this]
  | none =>
      have : ¬a.id ∈ assetIds cfg s := by
        rw [mem_assetIds_iff, hf]
        simp
      simp only [this, if_false, ite_false]
      exact assetIds_addNodeTo_self cfg s (Entry.assetNode a) h

theorem find?_isSome_assetStep (cfg : Config) (s : Store) (a : Asset)
    (tn' : String) :
    ((assetStep cfg.assetTypeName s a).find? tn').isSome = (s.find? tn').isSome := by
  unfold assetStep
  split
  · rfl
  · rw [Store.addNodeTo, Store.isSome_find?_modify]

/-- The inner asset loop: uniqueness of the id list is preserved, existing
ids stay, and every processed asset's id is present afterwards. -/
theorem foldl_assets_spec (cfg : Config) :
    ∀ (assets : List Asset) (acc : Store),
      (acc.find? cfg.assetTypeName).isSome →
      (assetIds cfg acc).Nodup →
      (assetIds cfg (assets.foldl (assetStep cfg.assetTypeName) acc)).Nodup ∧
      (∀ x ∈ assetIds cfg acc,
        x ∈ assetIds cfg (assets.foldl (assetStep cfg.assetTypeName) acc)) ∧
      (∀ a ∈ assets,
        a.id ∈ assetIds cfg (assets.foldl (assetStep cfg.assetTypeName) acc))
  | [], acc, _, hnd => ⟨hnd, fun x hx => hx, by simp⟩
  | a :: rest, acc, h, hnd => by
      have hstep := assetIds_assetStep cfg acc a h
      have hsome : ((assetStep cfg.assetTypeName acc a).find?
          cfg.assetTypeName).isSome := by
        rw [find?_isSome_assetStep]
        exact h
      have hnd' : (assetIds cfg (assetStep cfg.assetTypeName acc a)).Nodup := by
        rw [hstep]
        split
        · exact hnd
        · rename_i hmem
          simp [List.nodup_append, hnd, hmem]
      have hmono : ∀ x ∈ assetIds cfg acc,
          x ∈ assetIds cfg (assetStep cfg.assetTypeName acc a) := by
        intro x hx
        rw [hstep]
        split
        · exact hx
        · exact List.mem_append_left _ hx
      have hin : a.id ∈ assetIds cfg (assetStep cfg.assetTypeName acc a) := by
        rw [hstep]
        split
        · assumption
        · simp
      obtain ⟨ih1, ih2, ih3⟩ := foldl_assets_spec cfg rest
        (assetStep cfg.assetTypeName acc a) hsome hnd'
      refine ⟨by simpa using ih1, ?_, ?_⟩
      · intro x hx
        simpa using ih2 x (hmono x hx)
      · intro b hb
        rcases List.mem_cons.mp hb with hb | hb
        · subst hb
          simpa using ih2 b.id hin
        · simpa using ih3 b hb

/-- One `assetFieldStep`: same three properties, per asset field. -/
theorem assetFieldStep_spec (cfg : Config) (tn : String) (acc : Store)
    (f : AssetField) (h : (acc.find? cfg.assetTypeName).isSome)
    (hnd : (assetIds cfg acc).Nodup) :
    (assetIds cfg (assetFieldStep cfg.assetTypeName tn acc f)).Nodup ∧
    (∀ x ∈ assetIds cfg acc,
      x ∈ assetIds cfg (assetFieldStep cfg.assetTypeName tn acc f)) ∧
    (∀ a ∈ f.assets, a.id ∈ assetIds cfg (assetFieldStep cfg.assetTypeName tn acc f)) := by
  obtain ⟨h1, h2, h3⟩ := foldl_assets_spec cfg f.assets acc h hnd
  unfold assetFieldStep
  rw [assetIds_addReference]
  exact ⟨h1, h2, h3⟩

/-- The outer asset-field loop of `addAssetFields`. -/
theorem foldl_assetFields_spec (cfg : Config) (tn : String) :
    ∀ (fields : List AssetField) (acc : Store),
      (acc.find? cfg.assetTypeName).isSome →
      (assetIds cfg acc).Nodup →
      (assetIds cfg (fields.foldl (assetFieldStep cfg.assetTypeName tn) acc)).Nodup ∧
      (∀ x ∈ assetIds cfg acc,
        x ∈ assetIds cfg (fields.foldl (assetFieldStep cfg.assetTypeName tn) acc)) ∧
      (∀ f ∈ fields, ∀ a ∈ f.assets,
        a.id ∈ assetIds cfg (fields.foldl (assetFieldStep cfg.assetTypeName tn) acc))
  | [], acc, _, hnd => ⟨hnd, fun x hx => hx, by simp⟩
  | f :: rest, acc, h, hnd => by
      obtain ⟨h1, h2, h3⟩ := assetFieldStep_spec cfg tn acc f h hnd
      have hsome : ((assetFieldStep cfg.assetTypeName tn acc f).find?
          cfg.assetTypeName).isSome := by
        rw [find?_isSome_assetFieldStep]
        exact h
      obtain ⟨ih1, ih2, ih3⟩ := foldl_assetFields_spec cfg tn rest
        (assetFieldStep cfg.assetTypeName tn acc f) hsome h1
      refine ⟨by simpa using ih1, ?_, ?_⟩
      · intro x hx
        simpa using ih2 x (h2 x hx)
      · intro g hg a ha
        rcases List.mem_cons.mp hg with hg | hg
        · subst hg
          simpa using ih2 a.id (h3 a ha)
        · simpa using ih3 g hg a ha

/-- `addAssetFields`: uniqueness of the Asset id list is preserved and
every referenced asset's id ends up present. -/
theorem addAssetFields_spec (cfg : Config) (s : Store) (tn : String) (node : Node)
    (hnd : (assetIds cfg s).Nodup) :
    (assetIds cfg (addAssetFields cfg s tn node)).Nodup ∧
    (∀ x ∈ assetIds cfg s, x ∈ assetIds cfg (addAssetFields cfg s tn node)) ∧
    (∀ f ∈ node.assetFields, ∀ a ∈ f.assets,
      a.id ∈ assetIds cfg (addAssetFields cfg s tn node)) := by
  have hsome := find?_isSome_getCollection_self s cfg.assetTypeName
  have hids := assetIds_getCollection cfg s cfg.assetTypeName
  have hnd' : (assetIds cfg (getCollection s cfg.assetTypeName).1).Nodup := by
    rw [hids]
    exact hnd
  obtain ⟨h1, h2, h3⟩ := foldl_assetFields_spec cfg tn node.assetFields
    (getCollection s cfg.assetTypeName).1 hsome hnd'
  simp only [addAssetFields]
  refine ⟨h1, ?_, h3⟩
  intro x hx
  refine h2 x ?_
  rw [hids]
  exact hx

theorem assetIds_linkedItemFieldStep (cfg : Config) (tn : String) (acc : Store)
    (f : LinkedItemField) :
    assetIds cfg (linkedItemFieldStep tn acc f) = assetIds cfg acc := by
  unfold linkedItemFieldStep
  split
  · rfl
  · exact assetIds_addReference cfg acc tn f.fieldName _

theorem assetIds_taxonomyFieldStep (cfg : Config) (tn : String) (acc : Store)
    (f : TaxonomyField) :
    assetIds cfg (taxonomyFieldStep cfg tn acc f) = assetIds cfg acc :=
  assetIds_addReference cfg acc tn f.fieldName _

theorem assetIds_foldl_eq {α : Type} (cfg : Config) (step : Store → α → Store)
    (hstep : ∀ acc x, assetIds cfg (step acc x) = assetIds cfg acc) :
    ∀ (l : List α) (s : Store), assetIds cfg (l.foldl step s) = assetIds cfg s
  | [], _ => rfl
  | x :: rest, s => by
      simp only [List.foldl_cons]
      rw [assetIds_foldl_eq cfg step hstep rest _, hstep]

theorem assetIds_addLinkedItemFields (cfg : Config) (s : Store) (tn : String)
    (node : Node) :
    assetIds cfg (addLinkedItemFields s tn node) = assetIds cfg s :=
  assetIds_foldl_eq cfg _ (assetIds_linkedItemFieldStep cfg tn)
    node.linkedItemFields s

theorem assetIds_addTaxonomyFields (cfg : Config) (s : Store) (tn : String)
    (node : Node) :
    assetIds cfg (addTaxonomyFields cfg s tn node) = assetIds cfg s :=
  assetIds_foldl_eq cfg _ (assetIds_taxonomyFieldStep cfg tn) node.taxonomyFields s

theorem assetIds_addItemLinkNode (cfg : Config) (s : Store) (item : Item)
    (hlink : cfg.itemLinkTypeName ≠ cfg.assetTypeName) :
    assetIds cfg (addItemLinkNode cfg s item) = assetIds cfg s := by
  unfold addItemLinkNode
  rw [assetIds_addNodeTo_ne cfg _ _ _ (fun h => hlink h.symm)]
  exact assetIds_getCollection cfg s cfg.itemLinkTypeName

/-- Resolving one content node (into a non-Asset collection, with the
ItemLink collection distinct from the Asset collection) keeps the Asset
id list duplicate-free. -/
theorem assetIds_nodup_addContentNode (cfg : Config) (s : Store) (tn : String)
    (node : Node) (hlink : cfg.itemLinkTypeName ≠ cfg.assetTypeName)
    (htn : tn ≠ cfg.assetTypeName) (hnd : (assetIds cfg s).Nodup) :
    (assetIds cfg (addContentNode cfg s tn node).1).Nodup := by
  unfold addContentNode
  cases hf : s.findNode tn node.item.id with
  | some e => exact hnd
  | none =>
      simp only
      have e1 := assetIds_addLinkedItemFields cfg s tn node
      have e2 := assetIds_addTaxonomyFields cfg (addLinkedItemFields s tn node) tn node
      have h3 := (addAssetFields_spec cfg
        (addTaxonomyFields cfg (addLinkedItemFields s tn node) tn node) tn node
        (by rw [e2, e1]; exact hnd)).1
      have e4 := assetIds_addNodeTo_ne cfg
        (addAssetFields cfg (addTaxonomyFields cfg (addLinkedItemFields s tn node)
          tn node) tn node)
        tn (Entry.content node.item) (fun h => htn h.symm)
      split
      · rw [assetIds_addItemLinkNode cfg _ node.item hlink, e4]
        exact h3
      · rw [e4]
        exact h3

/-- The whole per-type node pass keeps the Asset id list duplicate-free,
provided no content node's own type name is the Asset type name. -/
theorem assetIds_nodup_addContentItemNodes (cfg : Config)
    (hlink : cfg.itemLinkTypeName ≠ cfg.assetTypeName) :
    ∀ (nodes : List Node) (s : Store),
      (∀ n ∈ nodes, n.item.typeName ≠ cfg.assetTypeName) →
      (assetIds cfg s).Nodup →
      (assetIds cfg (addContentItemNodes cfg s nodes)).Nodup
  | [], _, _, hnd => hnd
  | n :: rest, s, htn, hnd => by
      have hstep : (assetIds cfg (contentItemStep cfg s n)).Nodup := by
        unfold contentItemStep
        refine assetIds_nodup_addContentNode cfg _ n.item.typeName n hlink
          (htn n (by simp)) ?_
        rw [assetIds_getCollection]
        exact hnd
      have : addContentItemNodes cfg s (n :: rest) =
          addContentItemNodes cfg (contentItemStep cfg s n) rest := by
        simp [addContentItemNodes]
      rw [this]
      exact assetIds_nodup_addContentItemNodes cfg hlink rest
        (contentItemStep cfg s n) (fun m hm => htn m (List.mem_cons_of_mem n hm))
        hstep

/-! ## Claim theorems -/

/-- C2 (counterexample): the claim says that when `automaticFormat` is
true an explicit `format` argument is never applied; but for an asset of
media type `image/jpeg` with `automaticFormat = true` and
`format = "png"`, the resolver applies `withAutomaticFormat(Jpg)` and then
also `withFormat(Png)` — the two selections are independent `if` blocks,
not an `if`/`else`. -/
theorem resolve_explicit_format_applied_with_automatic :
    resolve ⟨"a1", "https://assets/x", "image/jpeg"⟩
        ⟨none, none, some true, some "png", none, none, none⟩ =
      [BuilderOp.withAutomaticFormat ImageFormatEnum.Jpg,
       BuilderOp.withFormat ImageFormatEnum.Png] ∧
    BuilderOp.withFormat ImageFormatEnum.Png ∈
      resolve ⟨"a1", "https://assets/x", "image/jpeg"⟩
        ⟨none, none, some true, some "png", none, none, none⟩ := by
  constructor
  · rfl
  · decide

/-- C2 (amended): format selection is applied after dimensions in the
fixed order dimensions → automatic format → explicit format → compression
→ quality → dpr, with automatic selection mapping gif→gif, jpeg→jpg,
png→png and any other media type leaving the automatic format unset, and
an explicit format string mapped case-insensitively (unrecognized strings
adding no format); the two selections are independent: an explicit format
argument is applied even when `automaticFormat` is true. -/
theorem resolve_format_selection_amended (obj : Asset) (args : ResolveArgs) :
    resolve obj args =
      dimensionOps args ++ automaticFormatOps obj.mediaType args.automaticFormat ++
        explicitFormatOps args.format ++ compressionOps args.lossless ++
        qualityOps args.quality ++ dprOps args.dpr := by
  rw [resolve_characterization]

/-- C8: when a content type's fetch returns zero primary entries,
`addContentNodes` stops at once and leaves the store untouched — no node
is created, even when the linked-items side table is non-empty. -/
theorem addContentNodes_empty_items (cfg : Config) (s : Store) (content : Content)
    (h : content.items = []) : addContentNodes cfg s content = s := by
  simp [addContentNodes, h]

/-- C8 witness: a fetch with no primary entries but a non-empty linked
items side table leaves the empty store unchanged. -/
theorem addContentNodes_empty_items_witness :
    (Content.mk [] [("li-1", sampleNode)]).items = [] ∧
    addContentNodes sampleCfg emptyStore (Content.mk [] [("li-1", sampleNode)]) =
      emptyStore :=
  ⟨rfl, addContentNodes_empty_items sampleCfg emptyStore _ rfl⟩

/-- C3: the claim says `addTaxonomyTermNodes` never raises on a term whose
child-term list is missing or malformed; in the code, building the node
evaluates `term.terms.map(...)`, which throws a `TypeError` on such a
term, aborting insertion of the rest of the tree. -/
theorem addTaxonomyTermNodes_missing_terms_error :
    addTaxonomyTermNodes
        [RTerm.mk "B" "B" "b" (some []), RTerm.mk "A" "A" "a" none] =
      Except.error "TypeError: term.terms.map is not a function" := by
  simp [addTaxonomyTermNodes, addTaxonomyTermNodesLoop]

/-- On a well-formed forest the loop of `addTaxonomyTermNodes` succeeds
and emits exactly the pre-order traversal, one node per term. -/
theorem addTaxonomyTermNodesLoop_ok_of_wf :
    (ts : List RTerm) → wellFormedForest ts = true →
      addTaxonomyTermNodesLoop ts = Except.ok ((preorderTerms ts).map termNodeOf)
  | [], _ => by
      simp [addTaxonomyTermNodesLoop, preorderTerms]
  | RTerm.mk i n sl none :: rest, h => by
      simp [wellFormedForest, RTerm.wellFormed] at h
  | RTerm.mk i n sl (some children) :: rest, h => by
      have hsplit : wellFormedForest children = true ∧ wellFormedForest rest = true := by
        simpa [wellFormedForest, RTerm.wellFormed] using h
      have ihc := addTaxonomyTermNodesLoop_ok_of_wf children hsplit.1
      have ihr := addTaxonomyTermNodesLoop_ok_of_wf rest hsplit.2
      have hmain : addTaxonomyTermNodes children =
          Except.ok ((preorderTerms children).map termNodeOf) := by
        by_cases hc : children.length = 0
        · obtain rfl := List.length_eq_zero.mp hc
          simp [addTaxonomyTermNodes, preorderTerms]
        · simp [addTaxonomyTermNodes, hc, ihc]
      simp [addTaxonomyTermNodesLoop, hmain, ihr, preorderTerms, termNodeOf,
        RTerm.terms, RTerm.id, RTerm.name, RTerm.slug]
termination_by ts => sizeOf ts

/-- C7: on every well-formed term forest, `addTaxonomyTermNodes` inserts
exactly one node per term in pre-order depth-first order (each term before
its descendants, a term's whole subtree before the next sibling), and each
inserted node's `terms` attribute holds exactly the ids of that term's
direct children. -/
theorem addTaxonomyTermNodes_preorder (ts : List RTerm)
    (h : wellFormedForest ts = true) :
    addTaxonomyTermNodes ts = Except.ok ((preorderTerms ts).map termNodeOf) := by
  by_cases hc : ts.length = 0
  · obtain rfl := List.length_eq_zero.mp hc
    simp [addTaxonomyTermNodes, preorderTerms]
  · simp [addTaxonomyTermNodes, hc, addTaxonomyTermNodesLoop_ok_of_wf ts h]

/-- C1: content nodes are deduplicated by id. When a node with the item's
id is already in the collection, `addContentNode` returns the store
unchanged together with the existing record — no reference declarations,
no asset insertions, no node insertion, no ItemLink derivation; in
particular a second insertion of the same id (first conjunct applied after
a first insertion, second conjunct) is a no-op returning the existing
record, leaving exactly one inserted node. -/
theorem addContentNode_dedup (cfg : Config) (s : Store) (tn : String)
    (node node' : Node) (hc : (s.find? tn).isSome)
    (hid : node'.item.id = node.item.id) :
    (∀ e, s.findNode tn node.item.id = some e →
      addContentNode cfg s tn node = (s, e)) ∧
    ∃ e, (addContentNode cfg s tn node).1.findNode tn node.item.id = some e ∧
      addContentNode cfg (addContentNode cfg s tn node).1 tn node' =
        ((addContentNode cfg s tn node).1, e) := by
  have hfound : ∀ (s0 : Store) (n : Node) (e : Entry),
      s0.findNode tn n.item.id = some e → addContentNode cfg s0 tn n = (s0, e) := by
    intro s0 n e he
    unfold addContentNode
    rw [he]
  refine ⟨fun e he => hfound s node e he, ?_⟩
  obtain ⟨e, he⟩ := Option.isSome_iff_exists.mp
    (findNode_isSome_addContentNode cfg s tn node hc)
  refine ⟨e, he, ?_⟩
  apply hfound
  rw [hid]
  exact he

/-- C1 witness: inserting `sampleNode` into an existing `Article`
collection and then inserting it again returns the stored record and
leaves the store of the first insertion unchanged. -/
theorem addContentNode_dedup_witness :
    (articleStore.find? "Article").isSome = true ∧
    (∃ e, (addContentNode sampleCfg articleStore "Article" sampleNode).1.findNode
        "Article" sampleNode.item.id = some e ∧
      addContentNode sampleCfg
          (addContentNode sampleCfg articleStore "Article" sampleNode).1
          "Article" sampleNode =
        ((addContentNode sampleCfg articleStore "Article" sampleNode).1, e)) :=
  ⟨by decide,
   (addContentNode_dedup sampleCfg articleStore "Article" sampleNode sampleNode
      (by decide) rfl).2⟩

/-- C6: within one type's assembly pass, the linked items are assembled
first: `addContentNodes` equals the primary pass run on the state left by
the linked pass, and in that intermediate state — the state in which the
first primary entry is assembled — every linked item is already findable
in its collection. -/
theorem linked_items_before_primary_entries (cfg : Config) (s : Store)
    (content : Content) (hitems : content.items ≠ [])
    (hlinked : content.linkedItems ≠ []) :
    addContentNodes cfg s content =
      addContentItemNodes cfg
        (addContentItemNodes cfg s (content.linkedItems.map (fun kv => kv.2)))
        content.items ∧
    ∀ kv ∈ content.linkedItems,
      ((addContentItemNodes cfg s
          (content.linkedItems.map (fun kv => kv.2))).findNode
        kv.2.item.typeName kv.2.item.id).isSome := by
  constructor
  · unfold addContentNodes
    have h1 : ¬content.items.length = 0 := by simp [hitems]
    have h2 : 0 < content.linkedItems.length := by
      simp [List.length_pos, hlinked]
    simp [h1, h2]
  · intro kv hkv
    exact findNode_isSome_addContentItemNodes cfg _ s kv.2
      (List.mem_map_of_mem _ hkv)

/-- C6 witness: with one primary `Article` entry and one linked `Author`
entry, the pass factors through the linked-items pass and the `Author`
node exists in the intermediate state. -/
theorem linked_items_before_primary_entries_witness :
    addContentNodes sampleCfg emptyStore sampleContent =
      addContentItemNodes sampleCfg
        (addContentItemNodes sampleCfg emptyStore
          (sampleContent.linkedItems.map (fun kv => kv.2)))
        sampleContent.items ∧
    ((addContentItemNodes sampleCfg emptyStore
        (sampleContent.linkedItems.map (fun kv => kv.2))).findNode
      "Author" "li-1").isSome = true :=
  ⟨(linked_items_before_primary_entries sampleCfg emptyStore sampleContent
      (by simp [sampleContent]) (by simp [sampleContent])).1,
   (linked_items_before_primary_entries sampleCfg emptyStore sampleContent
      (by simp [sampleContent]) (by simp [sampleContent])).2
     ("li-1", sampleLinkedNode) (by simp [sampleContent])⟩

/-- C4: reference declaration is asymmetric between the two field groups.
The references `addLinkedItemFields` declares are exactly one per
*non-empty* linked-item field — a linked-item field with zero items
contributes none — while `addAssetFields` declares a reference from every
asset field's name to the Asset collection's type name, zero assets
included. -/
theorem reference_declaration_asymmetry (cfg : Config) (s : Store) (tn : String)
    (node : Node) (h : (s.find? tn).isSome) :
    (addLinkedItemFields s tn node).refsOf tn =
      s.refsOf tn ++
        (node.linkedItemFields.filter (fun f => !f.linkedItems.isEmpty)).map
          linkedFieldRef ∧
    ∀ f ∈ node.assetFields, f.assets = [] →
      (f.fieldName, cfg.assetTypeName) ∈ (addAssetFields cfg s tn node).refsOf tn := by
  refine ⟨refsOf_addLinkedItemFields s tn node h, ?_⟩
  intro f hf _
  rw [refsOf_addAssetFields cfg s tn node h]
  refine List.mem_append_right _ ?_
  exact List.mem_map_of_mem _ hf

/-- C4 witness: on a node with one empty linked-item field (`related`) and
one empty asset field (`images`), no `related` reference is declared but
an `images -> Asset` reference is. -/
theorem reference_declaration_asymmetry_witness :
    (articleStore.find? "Article").isSome = true ∧
    (addLinkedItemFields articleStore "Article" sampleNode).refsOf "Article" =
      articleStore.refsOf "Article" ++
        (sampleNode.linkedItemFields.filter (fun f => !f.linkedItems.isEmpty)).map
          linkedFieldRef ∧
    (addLinkedItemFields articleStore "Article" sampleNode).refsOf "Article" = [] ∧
    ("images", "Asset") ∈
      (addAssetFields sampleCfg articleStore "Article" sampleNode).refsOf "Article" := by
  refine ⟨by decide, ?_, ?_, ?_⟩
  · exact (reference_declaration_asymmetry sampleCfg articleStore "Article" sampleNode
      (by decide)).1
  · rw [(reference_declaration_asymmetry sampleCfg articleStore "Article" sampleNode
      (by decide)).1]
    decide
  · exact (reference_declaration_asymmetry sampleCfg articleStore "Article" sampleNode
      (by decide)).2 ⟨"images", []⟩ (by decide) rfl

/-- C9: on a non-empty linked-item field the declared reference maps the
field name to the type name of the field's *first* linked item; the other
items' type names do not influence the result, and no error or warning
output exists — the embedding's whole effect is the reference list below. -/
theorem linked_item_reference_first_type (s : Store) (tn : String) (node : Node)
    (h : (s.find? tn).isSome) :
    (addLinkedItemFields s tn node).refsOf tn =
      s.refsOf tn ++
        (node.linkedItemFields.filter (fun f => !f.linkedItems.isEmpty)).map
          linkedFieldRef ∧
    ∀ f ∈ node.linkedItemFields, ∀ li lis, f.linkedItems = li :: lis →
      linkedFieldRef f = (f.fieldName, li.typeName) ∧
      (f.fieldName, li.typeName) ∈ (addLinkedItemFields s tn node).refsOf tn := by
  refine ⟨refsOf_addLinkedItemFields s tn node h, ?_⟩
  intro f hf li lis hcons
  have href : linkedFieldRef f = (f.fieldName, li.typeName) := by
    simp [linkedFieldRef, hcons]
  refine ⟨href, ?_⟩
  rw [refsOf_addLinkedItemFields s tn node h]
  refine List.mem_append_right _ ?_
  rw [← href]
  refine List.mem_map_of_mem _ ?_
  rw [List.mem_filter]
  exact ⟨hf, by simp [hcons]⟩

/-- C9 witness: a field whose linked items span the types `Article` and
`Author` resolves to a single reference to `Article`, the first item's
type. -/
theorem linked_item_reference_first_type_witness :
    (articleStore.find? "Article").isSome = true ∧
    (addLinkedItemFields articleStore "Article" sampleNode2).refsOf "Article" =
      [("related", "Article")] ∧
    ("related", "Article") ∈
      (addLinkedItemFields articleStore "Article" sampleNode2).refsOf "Article" := by
  refine ⟨by decide, ?_, ?_⟩
  · rw [(linked_item_reference_first_type articleStore "Article" sampleNode2
      (by decide)).1]
    decide
  · exact ((linked_item_reference_first_type articleStore "Article" sampleNode2
      (by decide)).2 ⟨"related", [⟨"li-1", "Article"⟩, ⟨"li-2", "Author"⟩]⟩
      (by decide) ⟨"li-1", "Article"⟩ [⟨"li-2", "Author"⟩] rfl).2

/-- C10: the Asset collection is a side effect of the passes themselves.
`addAssetFields` leaves it in existence even for a node with zero asset
fields; `addAssetSchemaResolvers` gets-or-creates it before its emptiness
check, and when it is empty (or absent) registers no resolvers; and
resolving any non-deduplicated content node leaves it in existence. -/
theorem asset_collection_created (cfg : Config) (s : Store) (tn : String)
    (node : Node) :
    ((addAssetFields cfg s tn node).find? cfg.assetTypeName).isSome ∧
    ((addAssetSchemaResolvers cfg s).find? cfg.assetTypeName).isSome ∧
    ((∀ c, s.find? cfg.assetTypeName = some c → c.nodes = []) →
      (addAssetSchemaResolvers cfg s).resolvers = s.resolvers) ∧
    (s.findNode tn node.item.id = none →
      ((addContentNode cfg s tn node).1.find? cfg.assetTypeName).isSome) := by
  refine ⟨find?_isSome_addAssetFields cfg s tn node, ?_, ?_, ?_⟩
  · simp only [addAssetSchemaResolvers]
    rcases hgc : getCollection s cfg.assetTypeName with ⟨s1, c⟩
    have hsome := find?_isSome_getCollection_self s cfg.assetTypeName
    rw [hgc] at hsome
    split
    · exact hsome
    · exact hsome
  · intro hc
    simp only [addAssetSchemaResolvers]
    rcases hgc : getCollection s cfg.assetTypeName with ⟨s1, c⟩
    have hres := resolvers_getCollection s cfg.assetTypeName
    rw [hgc] at hres
    have hempty : c.nodes = [] := by
      unfold getCollection at hgc
      cases hs : s.find? cfg.assetTypeName with
      | none =>
          rw [hs] at hgc
          injection hgc with hA hB
          rw [← hB]
          rfl
      | some c0 =>
          rw [hs] at hgc
          injection hgc with hA hB
          rw [← hB]
          exact hc c0 hs
    simp only [hempty, List.length_nil, if_pos rfl]
    exact hres
  · intro hn
    unfold addContentNode
    rw [hn]
    simp only
    have ha := find?_isSome_addAssetFields cfg
      (addTaxonomyFields cfg (addLinkedItemFields s tn node) tn node) tn node
    have hb : (((addAssetFields cfg
        (addTaxonomyFields cfg (addLinkedItemFields s tn node) tn node) tn
        node).addNodeTo tn (Entry.content node.item)).find?
        cfg.assetTypeName).isSome := by
      rw [Store.addNodeTo, Store.isSome_find?_modify]
      exact ha
    split
    · exact (Store.le_addItemLinkNode cfg _ node.item).1 cfg.assetTypeName hb
    · exact hb

/-- C10 witness: on the empty store, resolving a node with only empty
asset fields creates the Asset collection; the resolver pass creates it
too, and registers nothing because it is empty. -/
theorem asset_collection_created_witness :
    ((addAssetFields sampleCfg emptyStore "Article" sampleNode).find?
      "Asset").isSome = true ∧
    ((addAssetSchemaResolvers sampleCfg emptyStore).find? "Asset").isSome = true ∧
    (addAssetSchemaResolvers sampleCfg emptyStore).resolvers =
      emptyStore.resolvers ∧
    ((addContentNode sampleCfg emptyStore "Article" sampleNode).1.find?
      "Asset").isSome = true :=
  ⟨(asset_collection_created sampleCfg emptyStore "Article" sampleNode).1,
   (asset_collection_created sampleCfg emptyStore "Article" sampleNode).2.1,
   (asset_collection_created sampleCfg emptyStore "Article" sampleNode).2.2.1
     (fun c h => nomatch h),
   (asset_collection_created sampleCfg emptyStore "Article" sampleNode).2.2.2
     (by decide)⟩

/-- C5: assets are globally deduplicated by id. Starting from any store
whose Asset id list is duplicate-free, `addAssetFields` keeps it
duplicate-free and leaves every referenced asset id present — hence
exactly once; and an entire node pass (for collections distinct from the
Asset collection) keeps it duplicate-free, so the count stays one however
many fields across however many content nodes reference the same id. -/
theorem asset_nodes_deduplicated (cfg : Config) (s : Store) (tn : String)
    (node : Node) (hnd : (assetIds cfg s).Nodup) :
    ((assetIds cfg (addAssetFields cfg s tn node)).Nodup ∧
      ∀ f ∈ node.assetFields, ∀ a ∈ f.assets,
        (assetIds cfg (addAssetFields cfg s tn node)).count a.id = 1) ∧
    (∀ nodes : List Node, cfg.itemLinkTypeName ≠ cfg.assetTypeName →
      (∀ n ∈ nodes, n.item.typeName ≠ cfg.assetTypeName) →
      (assetIds cfg (addContentItemNodes cfg s nodes)).Nodup) := by
  obtain ⟨h1, h2, h3⟩ := addAssetFields_spec cfg s tn node hnd
  refine ⟨⟨h1, ?_⟩, ?_⟩
  · intro f hf a ha
    exact List.count_eq_one_of_mem h1 (h3 f hf a ha)
  · intro nodes hlink htn
    exact assetIds_nodup_addContentItemNodes cfg hlink nodes s htn hnd

/-- C5 witness: a node with two asset fields both referencing the asset
`A1` materializes exactly one `A1` node — the Asset id list is exactly
`["A1"]` and the count of `A1` is 1 — and a pass over two copies of that
node keeps the list duplicate-free. -/
theorem asset_nodes_deduplicated_witness :
    (assetIds sampleCfg articleStore).Nodup ∧
    (assetIds sampleCfg
        (addAssetFields sampleCfg articleStore "Article" sampleNode2)).count
      "A1" = 1 ∧
    assetIds sampleCfg
        (addAssetFields sampleCfg articleStore "Article" sampleNode2) = ["A1"] ∧
    (assetIds sampleCfg
        (addContentItemNodes sampleCfg articleStore
          [sampleNode2, sampleNode2])).Nodup := by
  refine ⟨by decide, ?_, by decide, ?_⟩
  · exact ((asset_nodes_deduplicated sampleCfg articleStore "Article" sampleNode2
      (by decide)).1).2
      ⟨"images", [⟨"A1", "https://assets/x", "image/png"⟩]⟩ (by decide)
      ⟨"A1", "https://assets/x", "image/png"⟩ (by decide)
  · exact (asset_nodes_deduplicated sampleCfg articleStore "Article" sampleNode2
      (by decide)).2 [sampleNode2, sampleNode2] (by decide) (by decide)

/-- C7 witness: on the tree `A -> [B, C]`, `B -> [D]` the observed
insertion order is A, B, D, C and each node's `terms` attribute lists the
direct children's ids. -/
theorem addTaxonomyTermNodes_preorder_witness :
    wellFormedForest sampleForest = true ∧
    addTaxonomyTermNodes sampleForest =
      Except.ok
        [⟨"A", "A", "a", ["B", "C"]⟩, ⟨"B", "B", "b", ["D"]⟩,
         ⟨"D", "D", "d", []⟩, ⟨"C", "C", "c", []⟩] := by
  have hwf : wellFormedForest sampleForest = true := by
    simp [sampleForest, wellFormedForest, RTerm.wellFormed]
  refine ⟨hwf, ?_⟩
  rw [addTaxonomyTermNodes_preorder sampleForest hwf]
  simp [sampleForest, preorderTerms, termNodeOf,
    RTerm.terms, RTerm.id, RTerm.name, RTerm.slug]

end KenticoKontentSource
